import Mathlib

/-
Verification of the pac_glm camera/timestep core.

Shallow embedding conventions:
* Rust `f32` values are modelled as exact rationals (`ℚ`); all arithmetic in
  the modelled code paths is exact, so overflow/rounding is out of scope.
* The transcendental primitives of the float type (`cos`, `sin`, `sqrt`) are
  abstracted as a bundle of functions `RealOps`; theorems about concrete
  runs carry hypotheses pinning the values these primitives take at the
  arguments actually reached (facts true of the real functions, e.g.
  `cos 0 = 1`, `sqrt 100 = 10`).
* Struct methods that mutate `&mut self` become functions `State → State`.
-/

namespace PacGlm

/-- The transcendental primitives of the scalar type, abstracted.
`cos`, `sin` are used by the orbit camera recomputation; `sqrt` by vector
normalization and quaternion-from-matrix conversion. -/
structure RealOps where
  cos : ℚ → ℚ
  sin : ℚ → ℚ
  sqrt : ℚ → ℚ

/-- Rust `f32::clamp(lo, hi)`: `if self < min { min } else if self > max { max } else { self }`
(the `assert!(min <= max)` panic is modelled by stating theorems under `lo ≤ hi`). -/
def ratClamp (x lo hi : ℚ) : ℚ :=
  if x < lo then lo else if hi < x then hi else x

/-! ## glam vector/quaternion primitives used by the sources -/

/-- `glam::Vec3` with exact-rational components. -/
structure Vec3 where
  x : ℚ
  y : ℚ
  z : ℚ
deriving DecidableEq

instance : Add Vec3 :=
  ⟨fun a b => ⟨a.x + b.x, a.y + b.y, a.z + b.z⟩⟩

instance : Sub Vec3 :=
  ⟨fun a b => ⟨a.x - b.x, a.y - b.y, a.z - b.z⟩⟩

instance : Neg Vec3 :=
  ⟨fun a => ⟨-a.x, -a.y, -a.z⟩⟩

/-- `glam` `Vec3 * f32` (componentwise scaling). -/
def Vec3.smul (v : Vec3) (s : ℚ) : Vec3 :=
  ⟨v.x * s, v.y * s, v.z * s⟩

/-- `Vec3::dot`. -/
def Vec3.dot (a b : Vec3) : ℚ :=
  a.x * b.x + a.y * b.y + a.z * b.z

/-- `Vec3::cross`. -/
def Vec3.cross (a b : Vec3) : Vec3 :=
  ⟨a.y * b.z - a.z * b.y, a.z * b.x - a.x * b.z, a.x * b.y - a.y * b.x⟩

def Vec3.ZERO : Vec3 := ⟨0, 0, 0⟩

def Vec3.ONE : Vec3 := ⟨1, 1, 1⟩

def Vec3.X : Vec3 := ⟨1, 0, 0⟩

def Vec3.Y : Vec3 := ⟨0, 1, 0⟩

def Vec3.Z : Vec3 := ⟨0, 0, 1⟩

def Vec3.NEG_X : Vec3 := ⟨-1, 0, 0⟩

def Vec3.NEG_Y : Vec3 := ⟨0, -1, 0⟩

def Vec3.NEG_Z : Vec3 := ⟨0, 0, -1⟩

/-- `Vec3::normalize`: `self * self.length().recip()` with
`length = sqrt(dot self self)`. -/
def Vec3.normalize (F : RealOps) (v : Vec3) : Vec3 :=
  v.smul (1 / F.sqrt (v.dot v))

/-- `Vec3::normalize_or_zero`: `let rcp = self.length_recip(); if rcp.is_finite() && rcp > 0.0
{ self * rcp } else { ZERO }`; in exact arithmetic the guard holds iff the length is
positive. -/
def Vec3.normalize_or_zero (F : RealOps) (v : Vec3) : Vec3 :=
  if 0 < F.sqrt (v.dot v) then v.smul (1 / F.sqrt (v.dot v)) else Vec3.ZERO

/-- `glam::Quat` (x, y, z, w) with exact-rational components. -/
structure Quat where
  x : ℚ
  y : ℚ
  z : ℚ
  w : ℚ
deriving DecidableEq

def Quat.IDENTITY : Quat := ⟨0, 0, 0, 1⟩

/-- `Quat::mul_quaternion` (Hamilton product, glam scalar implementation). -/
def Quat.mul (a b : Quat) : Quat :=
  ⟨a.w * b.x + a.x * b.w + a.y * b.z - a.z * b.y,
   a.w * b.y - a.x * b.z + a.y * b.w + a.z * b.x,
   a.w * b.z + a.x * b.y - a.y * b.x + a.z * b.w,
   a.w * b.w - a.x * b.x - a.y * b.y - a.z * b.z⟩

/-- `Quat::length_squared`. -/
def Quat.normSq (q : Quat) : ℚ :=
  q.x * q.x + q.y * q.y + q.z * q.z + q.w * q.w

/-- `Quat::mul_vec3` (glam scalar implementation):
`v * (w*w - dot b b) + b * (dot v b * 2) + cross b v * (w * 2)` where `b` is the
vector part. -/
def Quat.mulVec3 (q : Quat) (v : Vec3) : Vec3 :=
  let b : Vec3 := ⟨q.x, q.y, q.z⟩
  v.smul (q.w * q.w - b.dot b) + b.smul (v.dot b * 2) + (b.cross v).smul (q.w * 2)

/-! ## pac-math/src/transform.rs : Transform -/

/-- `Transform { position, rotation, scale }` from src/crates/pac-math/src/transform.rs. -/
structure Transform where
  position : Vec3
  rotation : Quat
  scale : Vec3
deriving DecidableEq

def Transform.IDENTITY : Transform :=
  { position := Vec3.ZERO, rotation := Quat.IDENTITY, scale := Vec3.ONE }

def Transform.from_rotation (rotation : Quat) : Transform :=
  { position := Vec3.ZERO, rotation := rotation, scale := Vec3.ONE }

/-- `Transform::forward`: `rotation * Vec3::NEG_Z`. -/
def Transform.forward (t : Transform) : Vec3 :=
  t.rotation.mulVec3 Vec3.NEG_Z

/-- `Transform::right`: `rotation * Vec3::X`. -/
def Transform.right (t : Transform) : Vec3 :=
  t.rotation.mulVec3 Vec3.X

/-- `Transform::up`: `rotation * Vec3::Y`. -/
def Transform.up (t : Transform) : Vec3 :=
  t.rotation.mulVec3 Vec3.Y

/-- `Transform::translate`: `position += translation`. -/
def Transform.translate (t : Transform) (translation : Vec3) : Transform :=
  { t with position := t.position + translation }

/-- `Transform::rotate_by`: `self.rotation = rotation * self.rotation` (no
renormalization in the source). -/
def Transform.rotate_by (t : Transform) (rotation : Quat) : Transform :=
  { t with rotation := Quat.mul rotation t.rotation }

/-- glam `Quat::from_rotation_axes`, the worker behind `Quat::from_mat4`
(`from_mat4` truncates the four matrix columns back to the three axes).
Branching follows DirectXMath `XMQuaternionRotationMatrix`. -/
def Quat.from_rotation_axes (F : RealOps) (x_axis y_axis z_axis : Vec3) : Quat :=
  let m00 := x_axis.x
  let m01 := x_axis.y
  let m02 := x_axis.z
  let m10 := y_axis.x
  let m11 := y_axis.y
  let m12 := y_axis.z
  let m20 := z_axis.x
  let m21 := z_axis.y
  let m22 := z_axis.z
  if m22 ≤ 0 then
    let dif10 := m11 - m00
    let omm22 := 1 - m22
    if dif10 ≤ 0 then
      let four_xsq := omm22 - dif10
      let inv4x := (1/2) / F.sqrt four_xsq
      ⟨four_xsq * inv4x, (m01 + m10) * inv4x, (m02 + m20) * inv4x, (m12 - m21) * inv4x⟩
    else
      let four_ysq := omm22 + dif10
      let inv4y := (1/2) / F.sqrt four_ysq
      ⟨(m01 + m10) * inv4y, four_ysq * inv4y, (m12 + m21) * inv4y, (m20 - m02) * inv4y⟩
  else
    let sum10 := m11 + m00
    let opm22 := 1 + m22
    if sum10 ≤ 0 then
      let four_zsq := opm22 - sum10
      let inv4z := (1/2) / F.sqrt four_zsq
      ⟨(m02 + m20) * inv4z, (m12 + m21) * inv4z, four_zsq * inv4z, (m10 - m01) * inv4z⟩
    else
      let four_wsq := opm22 + sum10
      let inv4w := (1/2) / F.sqrt four_wsq
      ⟨(m12 - m21) * inv4w, (m20 - m02) * inv4w, (m10 - m01) * inv4w, four_wsq * inv4w⟩

/-- `Quat::from_rotation_x`: `(sin(angle * 0.5), 0, 0, cos(angle * 0.5))`. -/
def Quat.from_rotation_x (F : RealOps) (angle : ℚ) : Quat :=
  ⟨F.sin (angle * (1/2)), 0, 0, F.cos (angle * (1/2))⟩

/-- `Quat::from_rotation_y`: `(0, sin(angle * 0.5), 0, cos(angle * 0.5))`. -/
def Quat.from_rotation_y (F : RealOps) (angle : ℚ) : Quat :=
  ⟨0, F.sin (angle * (1/2)), 0, F.cos (angle * (1/2))⟩

/-- The rotation `Transform::look_at` computes from a camera position toward
`target` with the given `up`: orthonormal basis `right, corrected_up, look_dir`,
packed column-wise into a matrix and converted back by `Quat::from_mat4`
(the fourth column `(0,0,0,1)` is discarded by the truncation). -/
def lookAtRotation (F : RealOps) (position target up : Vec3) : Quat :=
  let look_dir := Vec3.normalize F (target - position)
  let right := Vec3.normalize F (up.cross look_dir)
  let corrected_up := look_dir.cross right
  Quat.from_rotation_axes F right corrected_up look_dir

/-- `Transform::look_at`: sets only the rotation, from the basis built out of
the current position, `target` and `up`. -/
def Transform.look_at (F : RealOps) (t : Transform) (target up : Vec3) : Transform :=
  { t with rotation := lookAtRotation F t.position target up }

lemma Quat.normSq_mul (a b : Quat) :
    (Quat.mul a b).normSq = a.normSq * b.normSq := by
  simp only [Quat.mul, Quat.normSq]
  ring

/-- C1 counterexample: `rotate_by` performs no renormalization. Applying it to
the identity transform with the non-unit quaternion `(0,0,0,2)` leaves a
rotation of squared norm `4`; a renormalizing `rotate_by` would leave squared
norm `1`. -/
theorem C1_counterexample :
    ((Transform.IDENTITY.rotate_by (Quat.mk 0 0 0 2)).rotation).normSq = 4 ∧
    ((Transform.IDENTITY.rotate_by (Quat.mk 0 0 0 2)).rotation).normSq ≠ 1 := by
  constructor <;>
    norm_num [Transform.IDENTITY, Transform.rotate_by, Quat.mul, Quat.IDENTITY, Quat.normSq]

/-- C1 (amended): `rotate_by` composes by plain pre-multiplication without
renormalizing; nevertheless, because the quaternion norm is multiplicative,
in exact arithmetic a transform whose rotation is unit stays exactly
unit-norm after any sequence of `rotate_by` calls with unit-quaternion
arguments (the renormalization the spec describes is absent from the code,
and only floating-point drift — outside this exact model — would make the
norm deviate). -/
theorem C1_unit_norm_preserved (t : Transform) (qs : List Quat)
    (ht : t.rotation.normSq = 1) (hqs : ∀ q ∈ qs, q.normSq = 1) :
    ((qs.foldl Transform.rotate_by t).rotation).normSq = 1 := by
  induction qs generalizing t with
  | nil => simpa using ht
  | cons q rest ih =>
      rw [List.foldl_cons]
      apply ih
      · show ((Quat.mul q t.rotation)).normSq = 1
        rw [Quat.normSq_mul, ht, hqs q (List.mem_cons_self q rest), one_mul]
      · intro r hr
        exact hqs r (List.mem_cons_of_mem q hr)

/-- C1 witness: the identity transform stays unit-norm after rotating by the
unit quaternions `i` and `j`. -/
theorem C1_unit_norm_preserved_witness :
    ((([Quat.mk 1 0 0 0, Quat.mk 0 1 0 0]).foldl Transform.rotate_by
        Transform.IDENTITY).rotation).normSq = 1 :=
  C1_unit_norm_preserved Transform.IDENTITY _
    (by norm_num [Transform.IDENTITY, Quat.IDENTITY, Quat.normSq])
    (by
      intro q hq
      rcases List.mem_cons.mp hq with h | h
      · subst h; norm_num [Quat.normSq]
      · rw [List.mem_singleton.mp h]; norm_num [Quat.normSq])

/-- C8: `rotate_by(q)` sets the rotation to the pre-multiplication
`q * rotation`; at the concrete non-commuting pair (rotation `j`, delta `i`)
it differs from the post-multiplication `rotation * q`, so the ordering is
world-frame pre-multiplication as the spec states. -/
theorem C8_rotate_by_is_premultiplication :
    (∀ (t : Transform) (q : Quat), (t.rotate_by q).rotation = Quat.mul q t.rotation) ∧
    ((Transform.from_rotation (Quat.mk 0 1 0 0)).rotate_by (Quat.mk 1 0 0 0)).rotation
      ≠ Quat.mul (Transform.from_rotation (Quat.mk 0 1 0 0)).rotation (Quat.mk 1 0 0 0) := by
  constructor
  · intro t q
    rfl
  · simp only [Transform.from_rotation, Transform.rotate_by, Quat.mul, ne_eq, Quat.mk.injEq]
    norm_num

/-! ## pac-window/src/time.rs : FixedTimestep -/

/-- `FixedTimestep { accumulator, timestep, interpolation }` from
src/crates/pac-window/src/time.rs. -/
structure FixedTimestep where
  accumulator : ℚ
  timestep : ℚ
  interpolation : ℚ
deriving DecidableEq

/-- `FixedTimestep::new(fixed_delta_time)`. -/
def FixedTimestep.new (fixed_delta_time : ℚ) : FixedTimestep :=
  { accumulator := 0, timestep := fixed_delta_time, interpolation := 0 }

/-- `FixedTimestep::update`: `accumulator += delta_time; interpolation = accumulator / timestep`. -/
def FixedTimestep.update (ft : FixedTimestep) (delta_time : ℚ) : FixedTimestep :=
  { ft with
    accumulator := ft.accumulator + delta_time
    interpolation := (ft.accumulator + delta_time) / ft.timestep }

/-- `FixedTimestep::should_update`: `accumulator >= timestep`. -/
def FixedTimestep.should_update (ft : FixedTimestep) : Bool :=
  decide (ft.timestep ≤ ft.accumulator)

/-- `FixedTimestep::consume_tick`: `if accumulator >= timestep { accumulator -= timestep }`. -/
def FixedTimestep.consume_tick (ft : FixedTimestep) : FixedTimestep :=
  if ft.timestep ≤ ft.accumulator then
    { ft with accumulator := ft.accumulator - ft.timestep }
  else ft

/-- `FixedTimestep::interpolation()`: `self.interpolation.min(1.0)`.
(The method shares its name with the field in Rust; the field keeps the
source name, the method gets the suffix `Value`.) -/
def FixedTimestep.interpolationValue (ft : FixedTimestep) : ℚ :=
  min ft.interpolation 1

lemma FixedTimestep.consume_tick_timestep (ft : FixedTimestep) :
    ft.consume_tick.timestep = ft.timestep := by
  unfold FixedTimestep.consume_tick
  split <;> rfl

lemma FixedTimestep.consume_tick_interpolation (ft : FixedTimestep) :
    ft.consume_tick.interpolation = ft.interpolation := by
  unfold FixedTimestep.consume_tick
  split <;> rfl

lemma FixedTimestep.iterate_consume_tick_interpolation (n : ℕ) (ft : FixedTimestep) :
    ((FixedTimestep.consume_tick)^[n] ft).interpolation = ft.interpolation := by
  induction n generalizing ft with
  | zero => rfl
  | succ k ih =>
      rw [Function.iterate_succ_apply, ih, FixedTimestep.consume_tick_interpolation]

/-- C2 counterexample: with timestep `1/60`, after `update(1/30)` and one
`consume_tick()`, `should_update()` is still `true` (the accumulator equals
the timestep exactly, and `should_update` uses `>=`), contrary to the claim
that it is `false`. -/
theorem C2_counterexample :
    (((FixedTimestep.new (1/60)).update (1/30)).consume_tick).should_update = true := by
  have h : ((1 : ℚ)/60) ≤ 0 + 1/30 := by norm_num
  simp only [FixedTimestep.new, FixedTimestep.update, FixedTimestep.consume_tick,
    FixedTimestep.should_update, if_pos h]
  norm_num

/-- C2 (amended): `FixedTimestep::new(1/60)` then `update(1/30)` makes
`should_update()` true; one `consume_tick()` leaves the accumulator exactly
`1/60` (which is ≈ `1/60` as the spec expects) — but since the accumulator
then equals the timestep and `should_update` compares with `>=`,
`should_update()` remains `true`, not false. -/
theorem C2_fixed_timestep_run :
    ((FixedTimestep.new (1/60)).update (1/30)).should_update = true ∧
    (((FixedTimestep.new (1/60)).update (1/30)).consume_tick).accumulator = 1/60 ∧
    (((FixedTimestep.new (1/60)).update (1/30)).consume_tick).should_update = true := by
  have h : ((1 : ℚ)/60) ≤ 0 + 1/30 := by norm_num
  refine ⟨?_, ?_, ?_⟩ <;>
    simp only [FixedTimestep.new, FixedTimestep.update, FixedTimestep.consume_tick,
      FixedTimestep.should_update, if_pos h] <;>
    norm_num

/-- C3 counterexample: after `new(1)`, `update(3/2)`, `consume_tick()`, the
pending fraction of a tick is `(1/2)/1 = 1/2` (already ≤ 1), but
`interpolation()` returns `min(3/2, 1) = 1`: it is the stale ratio from the
last `update`, not the fractional remainder of the current accumulator. -/
theorem C3_counterexample :
    ¬ ((((FixedTimestep.new 1).update (3/2)).consume_tick).interpolationValue
      = min (((((FixedTimestep.new 1).update (3/2)).consume_tick).accumulator)
          / ((((FixedTimestep.new 1).update (3/2)).consume_tick).timestep)) 1) := by
  have h : (1 : ℚ) ≤ 0 + 3/2 := by norm_num
  simp only [FixedTimestep.new, FixedTimestep.update, FixedTimestep.consume_tick,
    FixedTimestep.interpolationValue, if_pos h]
  norm_num

/-- C3 (amended): `interpolation()` returns the accumulator-to-timestep ratio
as recorded by the last `update()` call, clamped to at most `1.0`; it is not
refreshed by `consume_tick()`, so after any number of `consume_tick` calls it
still reports the ratio at update time, which can differ from the fraction of
a tick currently pending. -/
theorem C3_interpolation_is_stale_clamped_ratio
    (ft : FixedTimestep) (dt : ℚ) (n : ℕ) :
    ((FixedTimestep.consume_tick)^[n] (ft.update dt)).interpolationValue
      = min ((ft.accumulator + dt) / ft.timestep) 1 := by
  rw [FixedTimestep.interpolationValue, FixedTimestep.iterate_consume_tick_interpolation]
  rfl

/-- C9: when `should_update()` is false (accumulator < timestep),
`consume_tick()` changes no field; and from a non-negative accumulator and
non-negative timestep, the accumulator stays non-negative under any number of
`consume_tick` calls. -/
theorem C9_consume_tick_safe (ft : FixedTimestep) :
    (ft.should_update = false → ft.consume_tick = ft) ∧
    (0 ≤ ft.accumulator → 0 ≤ ft.timestep →
      ∀ n : ℕ, 0 ≤ ((FixedTimestep.consume_tick)^[n] ft).accumulator) := by
  constructor
  · intro h
    have hlt : ¬ ft.timestep ≤ ft.accumulator := by
      simpa [FixedTimestep.should_update] using h
    simp [FixedTimestep.consume_tick, hlt]
  · intro hacc hts n
    induction n generalizing ft with
    | zero => simpa using hacc
    | succ k ih =>
        rw [Function.iterate_succ_apply]
        by_cases hc : ft.timestep ≤ ft.accumulator
        · refine ih _ ?_ ?_
          · simp only [FixedTimestep.consume_tick, if_pos hc]
            linarith
          · simp only [FixedTimestep.consume_tick, if_pos hc]
            exact hts
        · have heq : ft.consume_tick = ft := by simp [FixedTimestep.consume_tick, hc]
          rw [heq]
          exact ih ft hacc hts

/-- C9 witness at the state `{accumulator := 0, timestep := 1, interpolation := 0}`
and three `consume_tick` calls. -/
theorem C9_consume_tick_safe_witness :
    (FixedTimestep.mk 0 1 0).consume_tick = FixedTimestep.mk 0 1 0 ∧
    0 ≤ ((FixedTimestep.consume_tick)^[3] (FixedTimestep.mk 0 1 0)).accumulator :=
  ⟨(C9_consume_tick_safe (FixedTimestep.mk 0 1 0)).1 (by
      simp [FixedTimestep.should_update]),
   (C9_consume_tick_safe (FixedTimestep.mk 0 1 0)).2 le_rfl (by norm_num) 3⟩

/-! ## pac-render/src/camera.rs : Camera, OrbitCamera, FlyCamera -/

/-- `Camera { transform, fov_y, near, far, aspect_ratio }`. -/
structure Camera where
  transform : Transform
  fov_y : ℚ
  near : ℚ
  far : ℚ
  aspect_ratio : ℚ
deriving DecidableEq

/-- `Camera::new()` with the default settings (`DEFAULT_FOV` is the exact
value of `FRAC_PI_4` as an `f32`). -/
def Camera.new : Camera :=
  { transform := Transform.IDENTITY
    fov_y := 13176795/16777216
    near := 1/10
    far := 1000
    aspect_ratio := 16/9 }

/-- `Camera::forward`. -/
def Camera.forward (c : Camera) : Vec3 :=
  c.transform.forward

/-- `Camera::right`. -/
def Camera.right (c : Camera) : Vec3 :=
  c.transform.right

/-- `Camera::up`. -/
def Camera.up (c : Camera) : Vec3 :=
  c.transform.up

/-- `Camera::look_at`: delegates to `Transform::look_at`. -/
def Camera.look_at (F : RealOps) (c : Camera) (target up : Vec3) : Camera :=
  { c with transform := c.transform.look_at F target up }

/-- `OrbitCamera` state. -/
structure OrbitCamera where
  camera : Camera
  target : Vec3
  distance : ℚ
  min_distance : ℚ
  max_distance : ℚ
  yaw : ℚ
  pitch : ℚ
  min_pitch : ℚ
  max_pitch : ℚ
  rotation_sensitivity : ℚ
  zoom_sensitivity : ℚ
deriving DecidableEq

/-- `OrbitCamera::update_position`: spherical offset from
`(distance, yaw, pitch)`, then `look_at(target, Vec3::Y)` from the new
position. -/
def OrbitCamera.update_position (F : RealOps) (o : OrbitCamera) : OrbitCamera :=
  let cos_pitch := F.cos o.pitch
  let sin_pitch := F.sin o.pitch
  let cos_yaw := F.cos o.yaw
  let sin_yaw := F.sin o.yaw
  let offset : Vec3 :=
    ⟨o.distance * cos_pitch * sin_yaw, o.distance * sin_pitch, o.distance * cos_pitch * cos_yaw⟩
  let o1 := { o with camera := { o.camera with transform :=
    { o.camera.transform with position := o.target + offset } } }
  { o1 with camera := o1.camera.look_at F o1.target Vec3.Y }

/-- `OrbitCamera::new()`: default parameters, then `update_position`. Default
pitch limits `∓1.48`, sensitivities `0.005` and `0.1`, distance range
`[0.1, 1000]`. -/
def OrbitCamera.new (F : RealOps) : OrbitCamera :=
  OrbitCamera.update_position F
    { camera := Camera.new
      target := Vec3.ZERO
      distance := 10
      min_distance := 1/10
      max_distance := 1000
      yaw := 0
      pitch := 0
      min_pitch := -(37/25)
      max_pitch := 37/25
      rotation_sensitivity := 1/200
      zoom_sensitivity := 1/10 }

/-- `OrbitCamera::with_target`. -/
def OrbitCamera.with_target (F : RealOps) (o : OrbitCamera) (target : Vec3) : OrbitCamera :=
  OrbitCamera.update_position F { o with target := target }

/-- `OrbitCamera::with_distance`: clamps to the current distance limits. -/
def OrbitCamera.with_distance (F : RealOps) (o : OrbitCamera) (distance : ℚ) : OrbitCamera :=
  OrbitCamera.update_position F
    { o with distance := ratClamp distance o.min_distance o.max_distance }

/-- `OrbitCamera::with_distance_limits`: sets the limits and re-clamps the
distance. -/
def OrbitCamera.with_distance_limits (F : RealOps) (o : OrbitCamera) (mn mx : ℚ) : OrbitCamera :=
  OrbitCamera.update_position F
    { o with min_distance := mn, max_distance := mx, distance := ratClamp o.distance mn mx }

/-- `OrbitCamera::with_pitch_limits`: sets the limits and re-clamps the
pitch. -/
def OrbitCamera.with_pitch_limits (F : RealOps) (o : OrbitCamera) (mn mx : ℚ) : OrbitCamera :=
  OrbitCamera.update_position F
    { o with min_pitch := mn, max_pitch := mx, pitch := ratClamp o.pitch mn mx }

/-- `OrbitCamera::rotate`: scaled deltas, pitch clamped, then recompute. -/
def OrbitCamera.rotate (F : RealOps) (o : OrbitCamera) (delta_yaw delta_pitch : ℚ) : OrbitCamera :=
  OrbitCamera.update_position F
    { o with
      yaw := o.yaw + delta_yaw * o.rotation_sensitivity
      pitch := ratClamp (o.pitch + delta_pitch * o.rotation_sensitivity) o.min_pitch o.max_pitch }

/-- `OrbitCamera::zoom`: multiplicative factor `1 + delta * zoom_sensitivity`,
clamped distance, then recompute. -/
def OrbitCamera.zoom (F : RealOps) (o : OrbitCamera) (delta : ℚ) : OrbitCamera :=
  OrbitCamera.update_position F
    { o with distance :=
        ratClamp (o.distance * (1 + delta * o.zoom_sensitivity)) o.min_distance o.max_distance }

/-- `OrbitCamera::pan`: shifts the target along the pre-pan camera's right/up
basis, then recomputes. -/
def OrbitCamera.pan (F : RealOps) (o : OrbitCamera) (delta_right delta_up : ℚ) : OrbitCamera :=
  OrbitCamera.update_position F
    { o with target := o.target + ((o.camera.right).smul delta_right + (o.camera.up).smul delta_up) }

/-- `OrbitCamera::update`: just `update_position`. -/
def OrbitCamera.update (F : RealOps) (o : OrbitCamera) : OrbitCamera :=
  OrbitCamera.update_position F o

/-- `FlyCamera` state. -/
structure FlyCamera where
  camera : Camera
  speed : ℚ
  sensitivity : ℚ
  yaw : ℚ
  pitch : ℚ
  min_pitch : ℚ
  max_pitch : ℚ
deriving DecidableEq

/-- `FlyCamera::new()`: default speed `5.0`, sensitivity `0.002`, pitch limits
`∓1.55`. -/
def FlyCamera.new : FlyCamera :=
  { camera := Camera.new
    speed := 5
    sensitivity := 1/500
    yaw := 0
    pitch := 0
    min_pitch := -(31/20)
    max_pitch := 31/20 }

/-- `FlyCamera::with_pitch_limits`: sets only the two limit fields. -/
def FlyCamera.with_pitch_limits (fc : FlyCamera) (mn mx : ℚ) : FlyCamera :=
  { fc with min_pitch := mn, max_pitch := mx }

/-- `FlyCamera::update_rotation`: `rotation = from_rotation_y(yaw) * from_rotation_x(pitch)`. -/
def FlyCamera.update_rotation (F : RealOps) (fc : FlyCamera) : FlyCamera :=
  { fc with camera := { fc.camera with transform := { fc.camera.transform with
      rotation := Quat.mul (Quat.from_rotation_y F fc.yaw) (Quat.from_rotation_x F fc.pitch) } } }

/-- `FlyCamera::rotate_from_mouse`: accumulate scaled deltas (inverted Y),
clamp pitch, recompute rotation. -/
def FlyCamera.rotate_from_mouse (F : RealOps) (fc : FlyCamera) (dx dy : ℚ) : FlyCamera :=
  FlyCamera.update_rotation F
    { fc with
      yaw := fc.yaw + dx * fc.sensitivity
      pitch := ratClamp (fc.pitch + -dy * fc.sensitivity) fc.min_pitch fc.max_pitch }

/-- The combined movement direction of `move_wasd` before normalization:
`forward * forward_back + right * right_left`. -/
def FlyCamera.wasdCombination (fc : FlyCamera) (forward_back right_left : ℚ) : Vec3 :=
  (fc.camera.forward).smul forward_back + (fc.camera.right).smul right_left

/-- `FlyCamera::move_wasd`: normalize the combination when non-zero, then
`position += movement * speed * delta_time`. -/
def FlyCamera.move_wasd (F : RealOps) (fc : FlyCamera)
    (forward_back right_left delta_time : ℚ) : FlyCamera :=
  let movement := Vec3.normalize_or_zero F (fc.wasdCombination forward_back right_left)
  { fc with camera := { fc.camera with transform := { fc.camera.transform with
      position := fc.camera.transform.position + (movement.smul fc.speed).smul delta_time } } }

/-! ## Claims about the cameras -/

lemma ratClamp_le_hi {x lo hi : ℚ} (h : lo ≤ hi) : ratClamp x lo hi ≤ hi := by
  unfold ratClamp
  split_ifs with h1 h2
  · exact h
  · exact le_rfl
  · exact le_of_not_lt h2

lemma lo_le_ratClamp {x lo hi : ℚ} (h : lo ≤ hi) : lo ≤ ratClamp x lo hi := by
  unfold ratClamp
  split_ifs with h1 h2
  · exact le_rfl
  · exact h
  · exact le_of_not_lt h1

lemma ratClamp_eq_hi {x lo hi : ℚ} (h : lo ≤ hi) (hx : hi ≤ x) : ratClamp x lo hi = hi := by
  unfold ratClamp
  split_ifs with h1 h2
  · linarith
  · rfl
  · exact le_antisymm (not_lt.mp h2) hx

lemma OrbitCamera.update_position_pitch (F : RealOps) (o : OrbitCamera) :
    (OrbitCamera.update_position F o).pitch = o.pitch := rfl

lemma OrbitCamera.update_position_yaw (F : RealOps) (o : OrbitCamera) :
    (OrbitCamera.update_position F o).yaw = o.yaw := rfl

lemma OrbitCamera.update_position_min_pitch (F : RealOps) (o : OrbitCamera) :
    (OrbitCamera.update_position F o).min_pitch = o.min_pitch := rfl

lemma OrbitCamera.update_position_max_pitch (F : RealOps) (o : OrbitCamera) :
    (OrbitCamera.update_position F o).max_pitch = o.max_pitch := rfl

/-- The spherical offset the spec describes: pitch as elevation, yaw as
azimuth about the world Y axis, matching the offset built in
`OrbitCamera::update_position`. -/
def sphericalOffset (F : RealOps) (distance yaw pitch : ℚ) : Vec3 :=
  ⟨distance * F.cos pitch * F.sin yaw,
   distance * F.sin pitch,
   distance * F.cos pitch * F.cos yaw⟩

/-- The C4 invariant: the owned camera's transform is exactly the one derived
from the current orbit parameters — position `target + sphericalOffset` and
the `look_at(target, +Y)` rotation from that position. -/
def OrbitCamera.consistent (F : RealOps) (o : OrbitCamera) : Prop :=
  o.camera.transform.position = o.target + sphericalOffset F o.distance o.yaw o.pitch ∧
  o.camera.transform.rotation =
    lookAtRotation F (o.target + sphericalOffset F o.distance o.yaw o.pitch) o.target Vec3.Y

lemma OrbitCamera.update_position_consistent (F : RealOps) (o : OrbitCamera) :
    (OrbitCamera.update_position F o).consistent F :=
  ⟨rfl, rfl⟩

/-- C4: every public `OrbitCamera` mutator ends in the single recomputation
step, so after each of `rotate`, `zoom`, `pan`, `with_target`,
`with_distance`, `with_distance_limits`, `with_pitch_limits` and `update` the
owned camera's position equals `target + sphericalOffset(distance, yaw,
pitch)` and its rotation equals the `look_at(target, +Y)` result from that
position — the camera is never stale. -/
theorem C4_orbit_camera_never_stale (F : RealOps) (o : OrbitCamera)
    (dy dp d dr du mn mx : ℚ) (tgt : Vec3) :
    (o.rotate F dy dp).consistent F ∧
    (o.zoom F d).consistent F ∧
    (o.pan F dr du).consistent F ∧
    (o.with_target F tgt).consistent F ∧
    (o.with_distance F d).consistent F ∧
    (o.with_distance_limits F mn mx).consistent F ∧
    (o.with_pitch_limits F mn mx).consistent F ∧
    (o.update F).consistent F :=
  ⟨OrbitCamera.update_position_consistent F _,
   OrbitCamera.update_position_consistent F _,
   OrbitCamera.update_position_consistent F _,
   OrbitCamera.update_position_consistent F _,
   OrbitCamera.update_position_consistent F _,
   OrbitCamera.update_position_consistent F _,
   OrbitCamera.update_position_consistent F _,
   OrbitCamera.update_position_consistent F _⟩

/-- C5: under well-ordered limits, `rotate` keeps the pitch inside
`[min_pitch, max_pitch]`, never clamps the yaw, and saturates: from
`pitch = max_pitch`, a further positive pitch delta with positive
sensitivity leaves the pitch exactly at `max_pitch`. -/
theorem C5_rotate_clamps_pitch_not_yaw (F : RealOps) (o : OrbitCamera) (dy dp : ℚ)
    (hlim : o.min_pitch ≤ o.max_pitch) :
    ((o.rotate F dy dp).min_pitch ≤ (o.rotate F dy dp).pitch ∧
      (o.rotate F dy dp).pitch ≤ (o.rotate F dy dp).max_pitch) ∧
    (o.rotate F dy dp).yaw = o.yaw + dy * o.rotation_sensitivity ∧
    (o.pitch = o.max_pitch → 0 < dp → 0 < o.rotation_sensitivity →
      (o.rotate F dy dp).pitch = o.max_pitch) := by
  refine ⟨⟨?_, ?_⟩, rfl, ?_⟩
  · exact lo_le_ratClamp hlim
  · exact ratClamp_le_hi hlim
  · intro hsat hdp hsens
    show ratClamp (o.pitch + dp * o.rotation_sensitivity) o.min_pitch o.max_pitch = o.max_pitch
    refine ratClamp_eq_hi hlim ?_
    rw [hsat]
    nlinarith

/-- A trivial instantiation of the transcendental primitives (used only to
instantiate theorems whose conclusions do not depend on their values). -/
def trivialOps : RealOps :=
  { cos := fun _ => 0, sin := fun _ => 0, sqrt := fun _ => 0 }

/-- C5 witness at the freshly constructed orbit camera with unit deltas. -/
theorem C5_rotate_clamps_pitch_not_yaw_witness :
    (((OrbitCamera.new trivialOps).rotate trivialOps 1 1).min_pitch ≤
        ((OrbitCamera.new trivialOps).rotate trivialOps 1 1).pitch ∧
      ((OrbitCamera.new trivialOps).rotate trivialOps 1 1).pitch ≤
        ((OrbitCamera.new trivialOps).rotate trivialOps 1 1).max_pitch) ∧
    ((OrbitCamera.new trivialOps).rotate trivialOps 1 1).yaw =
      (OrbitCamera.new trivialOps).yaw + 1 * (OrbitCamera.new trivialOps).rotation_sensitivity ∧
    ((OrbitCamera.new trivialOps).pitch = (OrbitCamera.new trivialOps).max_pitch →
      (0 : ℚ) < 1 → 0 < (OrbitCamera.new trivialOps).rotation_sensitivity →
      ((OrbitCamera.new trivialOps).rotate trivialOps 1 1).pitch =
        (OrbitCamera.new trivialOps).max_pitch) :=
  C5_rotate_clamps_pitch_not_yaw trivialOps (OrbitCamera.new trivialOps) 1 1
    (by show (-(37/25) : ℚ) ≤ 37/25; norm_num)

/-- C10: `FlyCamera::with_pitch_limits` sets only the two limit fields —
pitch, camera and every other field are untouched, even when the current
pitch lies outside the new limits (shown at pitch `2` with limits `[-1,1]`);
by contrast `OrbitCamera::with_pitch_limits` clamps the pitch into the new
range; the stale fly pitch is only clamped at the next `rotate_from_mouse`
call. -/
theorem C10_fly_with_pitch_limits_sets_only_limits :
    (∀ (fc : FlyCamera) (mn mx : ℚ),
      fc.with_pitch_limits mn mx = { fc with min_pitch := mn, max_pitch := mx }) ∧
    (∀ (fc : FlyCamera) (mn mx : ℚ),
      (fc.with_pitch_limits mn mx).pitch = fc.pitch ∧
      (fc.with_pitch_limits mn mx).camera = fc.camera) ∧
    (∀ (F : RealOps) (o : OrbitCamera) (mn mx : ℚ),
      (OrbitCamera.with_pitch_limits F o mn mx).pitch = ratClamp o.pitch mn mx) ∧
    (({ FlyCamera.new with pitch := 2 } : FlyCamera).with_pitch_limits (-1) 1).pitch = 2 ∧
    (∀ F : RealOps,
      (FlyCamera.rotate_from_mouse F
        (({ FlyCamera.new with pitch := 2 } : FlyCamera).with_pitch_limits (-1) 1) 0 0).pitch
        = 1) := by
  refine ⟨fun fc mn mx => rfl, fun fc mn mx => ⟨rfl, rfl⟩, fun F o mn mx => rfl, rfl, ?_⟩
  intro F
  show ratClamp (2 + -0 * (1/500)) (-1) 1 = 1
  norm_num [ratClamp]

lemma Vec3.add_def (a b : Vec3) :
    a + b = ⟨a.x + b.x, a.y + b.y, a.z + b.z⟩ := rfl

lemma Vec3.sub_def (a b : Vec3) :
    a - b = ⟨a.x - b.x, a.y - b.y, a.z - b.z⟩ := rfl

lemma Vec3.smul_smul (v : Vec3) (a b : ℚ) :
    (v.smul a).smul b = v.smul (a * b) := by
  simp only [Vec3.smul, Vec3.mk.injEq]
  refine ⟨?_, ?_, ?_⟩ <;> ring

lemma Vec3.dot_smul_self (v : Vec3) (a : ℚ) :
    (v.smul a).dot (v.smul a) = v.dot v * a ^ 2 := by
  simp only [Vec3.smul, Vec3.dot]
  ring

lemma Vec3.dot_self_nonneg (v : Vec3) : 0 ≤ v.dot v := by
  unfold Vec3.dot
  nlinarith [mul_self_nonneg v.x, mul_self_nonneg v.y, mul_self_nonneg v.z]

lemma Vec3.dot_self_eq_zero_iff (v : Vec3) : v.dot v = 0 ↔ v = Vec3.ZERO := by
  obtain ⟨a, b, c⟩ := v
  simp only [Vec3.dot, Vec3.ZERO, Vec3.mk.injEq]
  constructor
  · intro h
    have ha : a * a = 0 := by nlinarith [mul_self_nonneg a, mul_self_nonneg b, mul_self_nonneg c]
    have hb : b * b = 0 := by nlinarith [mul_self_nonneg a, mul_self_nonneg b, mul_self_nonneg c]
    have hc : c * c = 0 := by nlinarith [mul_self_nonneg a, mul_self_nonneg b, mul_self_nonneg c]
    exact ⟨mul_self_eq_zero.mp ha, mul_self_eq_zero.mp hb, mul_self_eq_zero.mp hc⟩
  · rintro ⟨rfl, rfl, rfl⟩
    ring

lemma Vec3.add_sub_cancel_left (a b : Vec3) : (a + b) - a = b := by
  obtain ⟨ax, ay, az⟩ := a
  obtain ⟨bx, bz, bw⟩ := b
  simp only [Vec3.add_def, Vec3.sub_def, Vec3.mk.injEq]
  refine ⟨?_, ?_, ?_⟩ <;> ring

lemma Vec3.add_ZERO (a : Vec3) : a + Vec3.ZERO = a := by
  obtain ⟨ax, ay, az⟩ := a
  simp only [Vec3.add_def, Vec3.ZERO, Vec3.mk.injEq]
  refine ⟨?_, ?_, ?_⟩ <;> ring

lemma Vec3.ZERO_smul (s : ℚ) : Vec3.ZERO.smul s = Vec3.ZERO := by
  simp only [Vec3.smul, Vec3.ZERO, Vec3.mk.injEq]
  refine ⟨?_, ?_, ?_⟩ <;> ring

/-- C7: `move_wasd` leaves the position unchanged when the forward/right
combination is the zero vector (no division by zero), and otherwise moves by
a normalized direction scaled by `speed * delta_time`, so the squared
displacement magnitude is exactly `(speed * delta_time)^2` — diagonal
movement is no faster than axis-aligned movement. The two `sqrt`
hypotheses pin the abstract square root to its real value on the one
argument reached. -/
theorem C7_move_wasd_normalizes (F : RealOps) (fc : FlyCamera) (fb rl dt : ℚ)
    (hnn : 0 ≤ F.sqrt ((fc.wasdCombination fb rl).dot (fc.wasdCombination fb rl)))
    (hsq : F.sqrt ((fc.wasdCombination fb rl).dot (fc.wasdCombination fb rl)) ^ 2
      = (fc.wasdCombination fb rl).dot (fc.wasdCombination fb rl)) :
    (fc.wasdCombination fb rl = Vec3.ZERO →
      (fc.move_wasd F fb rl dt).camera.transform.position = fc.camera.transform.position) ∧
    (fc.wasdCombination fb rl ≠ Vec3.ZERO →
      (((fc.move_wasd F fb rl dt).camera.transform.position - fc.camera.transform.position).dot
        ((fc.move_wasd F fb rl dt).camera.transform.position - fc.camera.transform.position))
        = (fc.speed * dt) ^ 2) := by
  constructor
  · intro h0
    have hd : (fc.wasdCombination fb rl).dot (fc.wasdCombination fb rl) = 0 :=
      (Vec3.dot_self_eq_zero_iff _).mpr h0
    have hL : F.sqrt ((fc.wasdCombination fb rl).dot (fc.wasdCombination fb rl)) = 0 := by
      have h2 := hsq
      rw [hd] at h2
      rw [hd]
      exact (pow_eq_zero_iff two_ne_zero).mp h2
    show fc.camera.transform.position +
        ((Vec3.normalize_or_zero F (fc.wasdCombination fb rl)).smul fc.speed).smul dt
      = fc.camera.transform.position
    rw [Vec3.normalize_or_zero, if_neg (by rw [hL]; exact lt_irrefl 0),
      Vec3.ZERO_smul, Vec3.ZERO_smul, Vec3.add_ZERO]
  · intro hne
    set L := F.sqrt ((fc.wasdCombination fb rl).dot (fc.wasdCombination fb rl)) with hLdef
    have hdpos : 0 < (fc.wasdCombination fb rl).dot (fc.wasdCombination fb rl) :=
      lt_of_le_of_ne (Vec3.dot_self_nonneg _)
        (fun h => hne ((Vec3.dot_self_eq_zero_iff _).mp h.symm))
    have hLne : L ≠ 0 := by
      intro h
      rw [h] at hsq
      simp only [ne_eq, OfNat.ofNat_ne_zero, not_false_eq_true, zero_pow] at hsq
      exact absurd hsq.symm (ne_of_gt hdpos)
    have hLpos : 0 < L := lt_of_le_of_ne hnn (Ne.symm hLne)
    have hdisp : (fc.move_wasd F fb rl dt).camera.transform.position
        - fc.camera.transform.position
      = (((fc.wasdCombination fb rl).smul (1 / L)).smul fc.speed).smul dt := by
      show (fc.camera.transform.position +
          ((Vec3.normalize_or_zero F (fc.wasdCombination fb rl)).smul fc.speed).smul dt)
        - fc.camera.transform.position = _
      rw [Vec3.normalize_or_zero, if_pos hLpos, Vec3.add_sub_cancel_left]
    rw [hdisp, Vec3.smul_smul, Vec3.smul_smul, Vec3.dot_smul_self, ← hsq]
    field_simp

/-- Transcendental primitives whose `sqrt` is the identity function — enough
to satisfy the C7 hypotheses at an argument where the true square root is a
fixed point, namely `1`. -/
def idSqrtOps : RealOps :=
  { cos := fun _ => 1, sin := fun _ => 0, sqrt := fun x => x }

/-- C7 witness: from a fresh fly camera, full forward input (combination
`(0,0,-1)`, non-zero) for `delta_time = 2` gives squared displacement
`(speed * 2)^2`. -/
theorem C7_move_wasd_normalizes_witness :
    FlyCamera.new.wasdCombination 1 0 ≠ Vec3.ZERO ∧
    (((FlyCamera.new.move_wasd idSqrtOps 1 0 2).camera.transform.position -
        FlyCamera.new.camera.transform.position).dot
      ((FlyCamera.new.move_wasd idSqrtOps 1 0 2).camera.transform.position -
        FlyCamera.new.camera.transform.position)) = (FlyCamera.new.speed * 2) ^ 2 := by
  have hne : FlyCamera.new.wasdCombination 1 0 ≠ Vec3.ZERO := by
    norm_num [FlyCamera.wasdCombination, FlyCamera.new, Camera.new, Camera.forward,
      Camera.right, Transform.forward, Transform.right, Transform.IDENTITY, Quat.IDENTITY,
      Quat.mulVec3, Vec3.dot, Vec3.cross, Vec3.smul, Vec3.add_def, Vec3.NEG_Z, Vec3.X,
      Vec3.ZERO, Vec3.mk.injEq]
  refine ⟨hne, ?_⟩
  refine (C7_move_wasd_normalizes idSqrtOps FlyCamera.new 1 0 2 ?_ ?_).2 hne <;>
    norm_num [idSqrtOps, FlyCamera.wasdCombination, FlyCamera.new, Camera.new, Camera.forward,
      Camera.right, Transform.forward, Transform.right, Transform.IDENTITY, Quat.IDENTITY,
      Quat.mulVec3, Vec3.dot, Vec3.cross, Vec3.smul, Vec3.add_def, Vec3.NEG_Z, Vec3.X]

/-- C6: evaluating the code at the claim's input. For the state produced by
`OrbitCamera::new()` (target `(0,0,0)`, distance `10`, yaw `0`, pitch `0`),
the camera position is exactly `(0,0,10)` as the claim says, but the forward
direction is `(0,0,1)` — pointing away from the target, because `look_at`
aligns the `+Z` axis (not the `-Z` forward axis) with the look direction.
The hypotheses pin the abstract `cos`/`sin`/`sqrt` to the values the real
functions take at the arguments reached (all exact in `f32` as well). -/
theorem C6_orbit_new_position_and_forward (F : RealOps)
    (hc : F.cos 0 = 1) (hs : F.sin 0 = 0)
    (h100 : F.sqrt 100 = 10) (h1 : F.sqrt 1 = 1) (h4 : F.sqrt 4 = 2) :
    (OrbitCamera.new F).camera.transform.position = Vec3.mk 0 0 10 ∧
    (OrbitCamera.new F).camera.forward = Vec3.mk 0 0 1 := by
  have hposExpr :
      Vec3.ZERO + (⟨10 * F.cos 0 * F.sin 0, 10 * F.sin 0, 10 * F.cos 0 * F.cos 0⟩ : Vec3)
        = Vec3.mk 0 0 10 := by
    rw [hc, hs]
    norm_num [Vec3.add_def, Vec3.ZERO]
  have hlook : Vec3.normalize F (Vec3.ZERO - Vec3.mk 0 0 10) = Vec3.mk 0 0 (-1) := by
    unfold Vec3.normalize
    norm_num [Vec3.sub_def, Vec3.ZERO, Vec3.dot, Vec3.smul, h100, Vec3.mk.injEq]
  have hright : Vec3.normalize F (Vec3.Y.cross (Vec3.mk 0 0 (-1))) = Vec3.mk (-1) 0 0 := by
    unfold Vec3.normalize
    norm_num [Vec3.cross, Vec3.Y, Vec3.dot, Vec3.smul, h1, Vec3.mk.injEq]
  have hup : (Vec3.mk 0 0 (-1)).cross (Vec3.mk (-1) 0 0) = Vec3.mk 0 1 0 := by
    norm_num [Vec3.cross, Vec3.mk.injEq]
  have hrot : lookAtRotation F (Vec3.mk 0 0 10) Vec3.ZERO Vec3.Y = Quat.mk 0 1 0 0 := by
    simp only [lookAtRotation]
    rw [hlook, hright, hup]
    norm_num [Quat.from_rotation_axes, h4, Quat.mk.injEq]
  have hfwd : (Quat.mk 0 1 0 0).mulVec3 Vec3.NEG_Z = Vec3.mk 0 0 1 := by
    norm_num [Quat.mulVec3, Vec3.dot, Vec3.cross, Vec3.smul, Vec3.add_def, Vec3.NEG_Z,
      Vec3.mk.injEq]
  constructor
  · show Vec3.ZERO + (⟨10 * F.cos 0 * F.sin 0, 10 * F.sin 0, 10 * F.cos 0 * F.cos 0⟩ : Vec3)
      = Vec3.mk 0 0 10
    exact hposExpr
  · show (lookAtRotation F
        (Vec3.ZERO + (⟨10 * F.cos 0 * F.sin 0, 10 * F.sin 0, 10 * F.cos 0 * F.cos 0⟩ : Vec3))
        Vec3.ZERO Vec3.Y).mulVec3 Vec3.NEG_Z = Vec3.mk 0 0 1
    rw [hposExpr, hrot, hfwd]

/-- Transcendental primitives agreeing with the real `cos`, `sin`, `sqrt` at
the arguments reached by `OrbitCamera::new()`. -/
def c6Ops : RealOps :=
  { cos := fun _ => 1
    sin := fun _ => 0
    sqrt := fun x => if x = 100 then 10 else if x = 4 then 2 else if x = 1 then 1 else 0 }

/-- C6 witness: the concrete evaluation at `c6Ops`. -/
theorem C6_orbit_new_position_and_forward_witness :
    (OrbitCamera.new c6Ops).camera.transform.position = Vec3.mk 0 0 10 ∧
    (OrbitCamera.new c6Ops).camera.forward = Vec3.mk 0 0 1 :=
  C6_orbit_new_position_and_forward c6Ops rfl rfl
    (by norm_num [c6Ops]) (by norm_num [c6Ops]) (by norm_num [c6Ops])

end PacGlm
